import Mathlib

/-!
Verification of `scripts/check_spdx_headers.py` (SPDX header validator).

Lines of a file are modelled as `List Char` values (the physical line text,
without its terminating newline, exactly as produced by `readline` plus the
subsequent strip).  The two anchored regular expressions of the script are
implemented as deterministic matching functions; the validators, the
per-file parse stage and the `main` driver are translated function by
function.  External collaborators (git, the file system, `fnmatch`) are
modelled as fields of a `World` record, matching the interface the script
uses.
-/

namespace SpdxCheck

/-- Characters of a line of text, as Python sees them. -/
abbrev Str := List Char

/-- Whitespace class of Python's `str.strip()` and of `\s` in the two
regular expressions (ASCII part; header lines of interest are ASCII). -/
def isPySpace (c : Char) : Bool :=
  c == ' ' || c == '\t' || c == '\n' || c == '\r' || c == '\x0b' || c == '\x0c'

/-- Character class of the `raw_line.strip` call in `extract_header_lines`,
whose argument is the byte-order mark followed by the newline characters. -/
def isBomNl (c : Char) : Bool :=
  c == '\uFEFF' || c == '\n' || c == '\r'

/-- Drop the longest suffix of characters satisfying `p`. -/
def dropEndWhile (p : Char → Bool) (s : Str) : Str :=
  (s.reverse.dropWhile p).reverse

/-- Python `str.strip()` with no argument. -/
def pyStrip (s : Str) : Str :=
  dropEndWhile isPySpace (s.dropWhile isPySpace)

/-- Python `raw_line.strip("﻿\n\r")`. -/
def stripBomNl (s : Str) : Str :=
  dropEndWhile isBomNl (s.dropWhile isBomNl)

/-- Python `int(...)` on a string of decimal digits (the only inputs the
script feeds it, since the year tokens are regex-guaranteed `\d{4}`). -/
def natOfDigits (s : Str) : Nat :=
  s.foldl (fun n c => n * 10 + (c.toNat - 48)) 0

/-- Literal marker of `HEADER_REGEX`. -/
def copyLit : Str := "SPDX-FileCopyrightText:".data

/-- Literal marker of `LICENSE_REGEX`. -/
def licLit : Str := "SPDX-License-Identifier:".data

/-- The alternation `(?P<prefix>//|#)` at the anchor of both regexes:
splits off the matched comment marker. -/
def pfxSplit (s : Str) : Option (Str × Str) :=
  match s with
  | [] => none
  | [c] => if c = '#' then some ([c], []) else none
  | c1 :: c2 :: r =>
    if c1 = '/' then (if c2 = '/' then some ([c1, c2], r) else none)
    else if c1 = '#' then some ([c1], c2 :: r) else none

/-- Match a literal fragment of the regex and return the remainder. -/
def dropLit (lit s : Str) : Option Str :=
  if lit.isPrefixOf s then some (s.drop lit.length) else none

/-- Match `\d{4}` and return the digits and the remainder. -/
def take4Digits (s : Str) : Option (Str × Str) :=
  match s with
  | a :: b :: c :: d :: r =>
    if a.isDigit ∧ b.isDigit ∧ c.isDigit ∧ d.isDigit then some ([a, b, c, d], r)
    else none
  | _ => none

/-- Match `\s+(.+)$` at the end of `HEADER_REGEX` and return the holder
group.  Greedy `\s+` with one step of backtracking: when the remainder is
all whitespace of length at least two, the final whitespace character is
the holder (this is how Python's engine matches a header line that ends in
trailing blanks). -/
def wsTail (r : Str) : Option Str :=
  let k := (r.takeWhile isPySpace).length
  if k = 0 then none
  else
    let rest := r.drop k
    if rest.isEmpty then (if 2 ≤ k then some (r.drop (k - 1)) else none)
    else
      some rest

/-- `HEADER_REGEX.match`: on success returns the groups
`(prefix, years, holder)`.  `re.match` anchors at the start of the line;
a failure of the inner `-\d{4}` option cannot be repaired by backtracking
because `\s+` can never match the `-`. -/
def matchHeader (s : Str) : Option (Str × Str × Str) :=
  match pfxSplit s with
  | none => none
  | some (p, r1) =>
    match dropLit copyLit (r1.dropWhile isPySpace) with
    | none => none
    | some r2 =>
      match take4Digits (r2.dropWhile isPySpace) with
      | none => none
      | some (y1, r3) =>
        match r3 with
        | '-' :: r4 =>
          match take4Digits r4 with
          | some (y2, r5) =>
            match wsTail r5 with
            | some holder => some (p, y1 ++ '-' :: y2, holder)
            | none => none
          | none => none
        | _ =>
          match wsTail r3 with
          | some holder => some (p, y1, holder)
          | none => none

/-- `LICENSE_REGEX.match`: on success returns the groups
`(prefix, license)`.  The tail `\s*(\S.*)$` matches exactly when a
non-blank remainder follows the marker. -/
def matchLicense (s : Str) : Option (Str × Str) :=
  match pfxSplit s with
  | none => none
  | some (p, r1) =>
    match dropLit licLit (r1.dropWhile isPySpace) with
    | none => none
    | some r2 =>
      let lic := r2.dropWhile isPySpace
      if lic.isEmpty then none else some (p, lic)

/-- The scanning loop of `extract_header_lines`: first argument is the
remaining lines, second the already-found copyright line.  Blank lines are
skipped; the first line matching `HEADER_REGEX` becomes the copyright
line; after that, the first line matching `LICENSE_REGEX` ends the scan. -/
def scanLines : List Str → Option Str → Option Str × Option Str
  | [], h => (h, none)
  | l :: rest, h =>
    if (pyStrip (stripBomNl l)).isEmpty then scanLines rest h
    else
      match h with
      | none =>
        if (matchHeader (stripBomNl l)).isSome then scanLines rest (some (stripBomNl l))
        else scanLines rest none
      | some hl =>
        if (matchLicense (stripBomNl l)).isSome then (some hl, some (stripBomNl l))
        else scanLines rest (some hl)

/-- `extract_header_lines`: `none` content models a read failure
(`FileNotFoundError` / `UnicodeDecodeError`), which yields the empty
header match; otherwise at most the first 10 lines are scanned. -/
def extract_header_lines (content : Option (List Str)) : Option Str × Option Str :=
  match content with
  | none => (none, none)
  | some ls => scanLines (ls.take 10) none

/-- `parse_years`: split a year field at the first `-` if present. -/
def parse_years (ys : Str) : Nat × Option Nat :=
  if ys.contains '-' then
    (natOfDigits (ys.takeWhile (fun c => !(c == '-'))),
     some (natOfDigits ((ys.dropWhile (fun c => !(c == '-'))).drop 1)))
  else (natOfDigits ys, none)

/-- One constructor per `Violation(...)` site of the script, carrying the
data interpolated into that site's messages.
* `newFileYearRange cur hl hold`: "New files must use a single year (no range) ..."
* `newFileWrongYear cur hl hold`: "SPDX header year should be cur for new files."
* `missingLicense`: "Missing SPDX license identifier line below the copyright header."
* `predatesUseRange c cur hl hold`: "File predates current year; update SPDX header to use a year range c-cur."
* `yearShouldBeCurrent cur hl hold`: "SPDX header year should be cur."
* `earlierCreationUseRange c cur hl hold`: "File has earlier creation year; use range format c-cur."
* `rangeStartAfterEnd s e hl hold`: "Invalid SPDX year range (start year greater than end year)."
* `rangeEndNotCurrent s cur hl hold`: "Update SPDX year range end to cur." (expected s-cur)
* `rangeStartNotCreation c e hl hold`: "Year range should start at the file creation year c." (expected c-e)
* `rangeIdenticalBounds s hl hold`: "Year range uses identical start and end; use single year format instead."
* `missingHolder`: "SPDX header format is invalid: missing copyright holder."
* `invalidHeaderFormat`: "SPDX header format is invalid."
* `invalidLicenseFormat`: "SPDX license identifier line format is invalid."
* `pfxMismatch`: "SPDX header and license lines must use the same comment prefix." -/
inductive VK where
  | newFileYearRange (cur : Nat) (hl hold : Option Str)
  | newFileWrongYear (cur : Nat) (hl hold : Option Str)
  | missingLicense
  | predatesUseRange (c cur : Nat) (hl hold : Option Str)
  | yearShouldBeCurrent (cur : Nat) (hl hold : Option Str)
  | earlierCreationUseRange (c cur : Nat) (hl hold : Option Str)
  | rangeStartAfterEnd (s e : Nat) (hl hold : Option Str)
  | rangeEndNotCurrent (s cur : Nat) (hl hold : Option Str)
  | rangeStartNotCreation (c e : Nat) (hl hold : Option Str)
  | rangeIdenticalBounds (s : Nat) (hl hold : Option Str)
  | missingHolder
  | invalidHeaderFormat
  | invalidLicenseFormat
  | pfxMismatch
deriving DecidableEq

/-- `Violation(path, message_en, message_zh)`: the two messages are
determined by the kind and its payload. -/
structure Violation where
  path : Str
  kind : VK
deriving DecidableEq

/-- `validate_new_file`, returning the list of violations it appends
(the Python function appends to a mutable list in the same order). -/
def validate_new_file (path : Str) (ys? : Option Str) (lok : Bool) (cur : Nat)
    (hl hold : Option Str) : List Violation :=
  match ys? with
  | none => []
  | some ys =>
    let pr := parse_years ys
    let core : List Violation :=
      match pr.2 with
      | some _ => [⟨path, .newFileYearRange cur hl hold⟩]
      | none =>
        if pr.1 ≠ cur then [⟨path, .newFileWrongYear cur hl hold⟩] else []
    core ++ (if lok then [] else [⟨path, .missingLicense⟩])

/-- `validate_modified_file`, returning the list of violations it appends,
in append order.  `cy = some c` models a known creation year; the Python
guards `creation_year and ...` additionally require truthiness, i.e.
`c ≠ 0`. -/
def validate_modified_file (path : Str) (ys? : Option Str) (lok : Bool)
    (cy : Option Nat) (cur : Nat) (hl hold : Option Str) : List Violation :=
  match ys? with
  | none => []
  | some ys =>
    let pr := parse_years ys
    let s := pr.1
    let core : List Violation :=
      match pr.2 with
      | none =>
        if s ≠ cur then
          (match cy with
           | some c =>
             if c ≠ 0 ∧ c < cur then [⟨path, .predatesUseRange c cur hl hold⟩]
             else [⟨path, .yearShouldBeCurrent cur hl hold⟩]
           | none => [⟨path, .yearShouldBeCurrent cur hl hold⟩])
        else
          (match cy with
           | some c =>
             if c ≠ 0 ∧ c < cur then [⟨path, .earlierCreationUseRange c cur hl hold⟩]
             else []
           | none => [])
      | some e =>
        (if s > e then [⟨path, .rangeStartAfterEnd s e hl hold⟩] else []) ++
        (if e ≠ cur then [⟨path, .rangeEndNotCurrent s cur hl hold⟩] else []) ++
        (match cy with
         | some c => if c ≠ 0 ∧ s ≠ c then [⟨path, .rangeStartNotCreation c e hl hold⟩] else []
         | none => []) ++
        (if s = e then [⟨path, .rangeIdenticalBounds s hl hold⟩] else [])
    core ++ (if lok then [] else [⟨path, .missingLicense⟩])

/-- Outcome of one file in the counting of `main`'s loop: `skipped`,
`passed` (checked, no new violations) or `failed` (checked, new
violations).  `ignored` is produced only by the spec-modelled holder-filter
variant. -/
inductive Outcome where
  | skipped
  | passed
  | failed
  | ignored
deriving DecidableEq

/-- External collaborators and command-line environment of one run:
git history access, the file system, and `fnmatch` (kept abstract). -/
structure World where
  isDir : Str → Bool
  content : Str → Option (List Str)
  creationYear : Str → Option Nat
  matchGlob : Str → Str → Bool
  baseResolvable : Bool
  diffLines : List Str
  lsLines : List Str

/-- Resolved command-line options of `main`. -/
structure Cfg where
  includePats : List Str
  excludePats : List Str
  currentYear : Nat
  checkAllFiles : Bool

/-- Result of one run of `main`: its return value (the process exit code)
plus the collected violations and the three counters. -/
structure RunResult where
  exitCode : Nat
  violations : List Violation
  checked : Nat
  passed : Nat
  skippedCount : Nat
deriving DecidableEq

/-- Header half of the per-file parse stage of `main`: re-match
`HEADER_REGEX` on the stripped extracted line; returns the appended
violations, `years_field`, `holder` and `header_prefix` (reset to `none`
when the holder is blank, exactly as the script does). -/
def headerPart (path hl : Str) : List Violation × Option Str × Option Str × Option Str :=
  match matchHeader (pyStrip hl) with
  | some (p, ys, hold) =>
    if hold.isEmpty || (pyStrip hold).isEmpty then
      ([⟨path, .missingHolder⟩], some ys, some hold, none)
    else ([], some ys, some hold, some p)
  | none => ([⟨path, .invalidHeaderFormat⟩], none, none, none)

/-- License half of the per-file parse stage: re-match `LICENSE_REGEX` on
the stripped license line; returns the appended violations and the
`license_ok` flag (`header_prefix is None or license_prefix ==
header_prefix`; `False` when the line is absent or malformed). -/
def licensePart (path : Str) (hpfx : Option Str) (l? : Option Str) : List Violation × Bool :=
  match l? with
  | some ll =>
    match matchLicense (pyStrip ll) with
    | some (lp, _) => ([], match hpfx with | none => true | some p => lp == p)
    | none => ([⟨path, .invalidLicenseFormat⟩], false)
  | none => ([], false)

/-- Output of the per-file parse stage. -/
structure ParseOut where
  viols : List Violation
  yearsField : Option Str
  holder : Option Str
  hdrPfx : Option Str
  licenseOk : Bool

/-- Per-file parse stage of `main` (lines 469-519 of the script): header
re-match, license re-match, then the comment-marker consistency check
`if header_prefix and license_line and not license_ok`. -/
def parseStage (path hl : Str) (l? : Option Str) : ParseOut :=
  let hp := headerPart path hl
  let lp := licensePart path hp.2.2.2 l?
  let mv : List Violation :=
    if hp.2.2.2.isSome && l?.isSome && !lp.2 then [⟨path, VK.pfxMismatch⟩] else []
  ⟨hp.1 ++ lp.1 ++ mv, hp.2.1, hp.2.2.1, hp.2.2.2, lp.2⟩

/-- Python `status.upper()`. -/
def statusUpper (st : Str) : Str := st.map Char.toUpper

/-- Status string "A". -/
def strA : Str := "A".data

/-- Status string "M". -/
def strM : Str := "M".data

/-- Status string "C". -/
def strC : Str := "C".data

/-- Status string "R". -/
def strR : Str := "R".data

/-- Status dispatch of `main`: `A` runs the new-file rules, `M` and `C`
run the modified-file rules after the creation-year lookup; every other
status value runs no status-specific validation. -/
def dispatchStage (stU path : Str) (ys? : Option Str) (lok : Bool)
    (cy : Option Nat) (cur : Nat) (hl : Str) (hold : Option Str) : List Violation :=
  if stU = strA then validate_new_file path ys? lok cur (some hl) hold
  else if stU = strM ∨ stU = strC then
    validate_modified_file path ys? lok cy cur (some hl) hold
  else []

/-- The checked part of `main`'s loop body for one file, once a copyright
line was extracted: parse stage, status dispatch, and the
passed-or-failed decision. -/
def checkStage (w : World) (cfg : Cfg) (status path hl : Str) (l? : Option Str) :
    List Violation × Outcome :=
  let po := parseStage path hl l?
  let dv := dispatchStage (statusUpper status) path po.yearsField po.licenseOk
      (w.creationYear path) cfg.currentYear hl po.holder
  let allv := po.viols ++ dv
  (allv, if allv.isEmpty then Outcome.passed else Outcome.failed)

/-- One iteration of `main`'s loop: include filter, exclude filter,
directory check, extraction, the no-header skip, then `checkStage`.
Returns the violations this file appends and how the file is counted. -/
def processFile (w : World) (cfg : Cfg) (status path : Str) : List Violation × Outcome :=
  if !cfg.includePats.isEmpty && !(cfg.includePats.any fun pat => w.matchGlob path pat) then
    ([], .skipped)
  else if !cfg.excludePats.isEmpty && (cfg.excludePats.any fun pat => w.matchGlob path pat) then
    ([], .skipped)
  else if w.isDir path then ([], .skipped)
  else
    match extract_header_lines (w.content path) with
    | (none, _) => ([], .skipped)
    | (some hl, l?) => checkStage w cfg status path hl l?

/-- Python `line.split("\t")`. -/
def splitTab : Str → List Str
  | [] => [[]]
  | c :: r =>
    if c = '\t' then [] :: splitTab r
    else
      match splitTab r with
      | [] => [[c]]
      | p :: ps => (c :: p) :: ps

/-- Head-character test used for `status.startswith`. -/
def headIs (c : Char) : Str → Bool
  | x :: _ => x == c
  | [] => false

/-- One line of `git diff --name-status` output, as consumed by
`list_changed_files`: renames and copies take the destination column and
the status truncated to its first letter; other statuses take the second
column; short or blank rows are dropped. -/
def parseDiffLine (line : Str) : Option (Str × Str) :=
  if (pyStrip line).isEmpty then none
  else
    let parts := splitTab line
    let st := parts.headD []
    if headIs 'R' st || headIs 'C' st then
      if 3 ≤ parts.length then some (st.take 1, parts.getD 2 []) else none
    else
      if 2 ≤ parts.length then some (st, parts.getD 1 []) else none

/-- `list_changed_files`, over the already-split diff output lines. -/
def list_changed_files (diffLines : List Str) : List (Str × Str) :=
  diffLines.filterMap parseDiffLine

/-- `list_all_files`: every non-blank `git ls-files` line, stripped, with
status `M`. -/
def list_all_files (lsLines : List Str) : List (Str × Str) :=
  lsLines.filterMap fun l =>
    if (pyStrip l).isEmpty then none else some (strM, pyStrip l)

/-- Loop-body accumulation of `main`: violations in append order plus the
`(checked, passed, skipped)` counters. -/
def fileStep (w : World) (cfg : Cfg) (acc : List Violation × Nat × Nat × Nat)
    (e : Str × Str) : List Violation × Nat × Nat × Nat :=
  let r := processFile w cfg e.1 e.2
  match r.2 with
  | .skipped => (acc.1 ++ r.1, acc.2.1, acc.2.2.1, acc.2.2.2 + 1)
  | .ignored => (acc.1 ++ r.1, acc.2.1, acc.2.2.1, acc.2.2.2 + 1)
  | .passed => (acc.1 ++ r.1, acc.2.1 + 1, acc.2.2.1 + 1, acc.2.2.2)
  | .failed => (acc.1 ++ r.1, acc.2.1 + 1, acc.2.2.1, acc.2.2.2)

/-- The file loop of `main`. -/
def runFiles (w : World) (cfg : Cfg) (entries : List (Str × Str)) :
    List Violation × Nat × Nat × Nat :=
  entries.foldl (fileStep w cfg) ([], 0, 0, 0)

/-- Tail of `main` after the change list is known: empty list returns 0
("nothing to check"); otherwise the loop runs and the exit code is 1
exactly when violations were collected. -/
def mainFinish (w : World) (cfg : Cfg) (changed : List (Str × Str)) : RunResult :=
  if changed.isEmpty then ⟨0, [], 0, 0, 0⟩
  else
    let r := runFiles w cfg changed
    ⟨if r.1.isEmpty then 0 else 1, r.1, r.2.1, r.2.2.1, r.2.2.2⟩

/-- `main`: all-files mode enumerates `git ls-files`; diff mode first
resolves the base revision and returns 2 when that fails, before any
per-file processing. -/
def mainRun (w : World) (cfg : Cfg) : RunResult :=
  if cfg.checkAllFiles then mainFinish w cfg (list_all_files w.lsLines)
  else if w.baseResolvable then mainFinish w cfg (list_changed_files w.diffLines)
  else ⟨2, [], 0, 0, 0⟩

/-- Modelled from the spec: the copyright-holder glob filter (`--holder`)
present only in the test variant of the script, not in
`scripts/check_spdx_headers.py` itself.  Per the spec it is a pre-filter:
when configured and the parsed holder does not match the glob, the file is
excluded from all rule evaluation (format and semantic alike) and recorded
as "Ignored (holder mismatch)"; otherwise the file is processed exactly as
in `processFile`. -/
def processFileH (w : World) (cfg : Cfg) (holderPat : Option Str) (status path : Str) :
    List Violation × Outcome :=
  if !cfg.includePats.isEmpty && !(cfg.includePats.any fun pat => w.matchGlob path pat) then
    ([], .skipped)
  else if !cfg.excludePats.isEmpty && (cfg.excludePats.any fun pat => w.matchGlob path pat) then
    ([], .skipped)
  else if w.isDir path then ([], .skipped)
  else
    match extract_header_lines (w.content path) with
    | (none, _) => ([], .skipped)
    | (some hl, l?) =>
      match holderPat with
      | some pat =>
        (match matchHeader (pyStrip hl) with
         | some (_, _, hold) =>
           if w.matchGlob hold pat then checkStage w cfg status path hl l?
           else ([], .ignored)
         | none => checkStage w cfg status path hl l?)
      | none => checkStage w cfg status path hl l?

/-- Concrete copyright line of the spec's scenario 1. -/
def wl1 : Str := "// SPDX-FileCopyrightText: 2026 Acme Corp".data

/-- Concrete license line of the spec's scenario 1. -/
def wl2 : Str := "// SPDX-License-Identifier: MIT".data

/-- Concrete path of the added-file scenario. -/
def wPath : Str := "src/new_file.c".data

/-- Holder group of `wl1`. -/
def wHold : Str := "Acme Corp".data

/-- C-style comment marker. -/
def wPfxC : Str := "//".data

/-- Script-style comment marker. -/
def wPfxH : Str := "#".data

/-- Year group of `wl1`. -/
def wYears1 : Str := "2026".data

/-- License group of `wl2`. -/
def wLicMit : Str := "MIT".data

/-- Diff row adding `wPath`. -/
def wDiffA : Str := "A\tsrc/new_file.c".data

/-- Default configuration: no filters, current year 2026, diff mode. -/
def baseCfg : Cfg := ⟨[], [], 2026, false⟩

/-- World of the added-file scenario: only `wPath` exists, holding the two
scenario lines; the base revision resolves and the diff lists `wPath` as
added. -/
def w3 : World :=
  { isDir := fun _ => false
    content := fun p => if p = wPath then some [wl1, wl2] else none
    creationYear := fun _ => none
    matchGlob := fun _ _ => true
    baseResolvable := true
    diffLines := [wDiffA]
    lsLines := [] }

/-- Script-style license line, for the marker-mismatch scenario. -/
def lic10 : Str := "# SPDX-License-Identifier: MIT".data

/-- Path of the marker-mismatch scenario. -/
def p10 : Str := "tool.py".data

/-- World of the marker-mismatch scenario: copyright line with `//`,
license line with `#`. -/
def w10 : World :=
  { isDir := fun _ => false
    content := fun p => if p = p10 then some [wl1, lic10] else none
    creationYear := fun _ => none
    matchGlob := fun _ _ => true
    baseResolvable := true
    diffLines := []
    lsLines := [] }

/-- Stale script-style copyright line (year 2020). -/
def cHdr : Str := "# SPDX-FileCopyrightText: 2020 Acme".data

/-- Matching script-style license line. -/
def cLic : Str := "# SPDX-License-Identifier: MIT".data

/-- Path of the rename scenario. -/
def cPath : Str := "lib/old.py".data

/-- World of the rename scenario: the file carries a stale 2020 header and
was created in 2020, while the current year is 2026. -/
def wRen : World :=
  { isDir := fun _ => false
    content := fun p => if p = cPath then some [cHdr, cLic] else none
    creationYear := fun _ => some 2020
    matchGlob := fun _ _ => true
    baseResolvable := true
    diffLines := []
    lsLines := [] }

/-- A line that superficially resembles a copyright header but has no
holder, so it fails the full pattern. -/
def nearMiss : Str := "// SPDX-FileCopyrightText: 2026".data

/-- Path of the near-miss scenario. -/
def p5 : Str := "near.c".data

/-- World of the near-miss scenario. -/
def w5 : World :=
  { isDir := fun _ => false
    content := fun p => if p = p5 then some [nearMiss] else none
    creationYear := fun _ => none
    matchGlob := fun _ _ => true
    baseResolvable := true
    diffLines := []
    lsLines := [] }

/-- Rename status column as git prints it. -/
def statR4 : Str := "R100".data

/-- Similarity tail of `statR4`. -/
def rest4 : Str := "100".data

/-- Source column of a rename row. -/
def srcP : Str := "old/name.c".data

/-- Destination column of a rename row. -/
def dstP : Str := "new/name.c".data

/-- World with no readable files (every read fails). -/
def w7 : World :=
  { isDir := fun _ => false
    content := fun _ => none
    creationYear := fun _ => none
    matchGlob := fun _ _ => true
    baseResolvable := true
    diffLines := []
    lsLines := [] }

/-- Path of the unreadable-file scenario. -/
def p7 : Str := "missing.bin".data

/-- World whose base revision does not resolve. -/
def w8 : World :=
  { isDir := fun _ => false
    content := fun _ => none
    creationYear := fun _ => none
    matchGlob := fun _ _ => true
    baseResolvable := false
    diffLines := [wDiffA]
    lsLines := [] }

/-- Holder glob of the holder-filter scenario. -/
def patU : Str := "*UnionTech*".data

/-- Path of the holder-filter scenario. -/
def p9 : Str := "file1.py".data

/-- World of the holder-filter scenario: the file's holder is `Acme Corp`
and the (abstract) glob matcher rejects every candidate, modelling a
non-matching pattern. -/
def w9 : World :=
  { isDir := fun _ => false
    content := fun p => if p = p9 then some [wl1, wl2] else none
    creationYear := fun _ => none
    matchGlob := fun _ _ => false
    baseResolvable := true
    diffLines := []
    lsLines := [] }

/-- Reversed year range used for the cumulative-range scenario. -/
def ysRange : Str := "2025-2024".data

/-- Stale single year used for the modified-file scenario. -/
def ysOld : Str := "2023".data

/-- A list whose head is not whitespace does not strip to the empty
string. -/
theorem pyStrip_cons_ne (c : Char) (r : Str) (hc : isPySpace c = false) :
    (pyStrip (c :: r)).isEmpty = false := by
  unfold pyStrip dropEndWhile
  rw [List.dropWhile_cons_of_neg (by simp [hc])]
  cases hE : (c :: r).reverse.dropWhile isPySpace with
  | nil =>
    exfalso
    have := List.dropWhile_eq_nil_iff.mp hE c (by simp)
    simp [hc] at this
  | cons x xs => simp [hE]

/-- A whitespace character starts no comment marker. -/
theorem pfxSplit_ws (c : Char) (r : Str) (hc : isPySpace c = true) :
    pfxSplit (c :: r) = none := by
  have h1 : c ≠ '/' := by rintro rfl; simp [isPySpace] at hc
  have h2 : c ≠ '#' := by rintro rfl; simp [isPySpace] at hc
  cases r with
  | nil => simp [pfxSplit, h2]
  | cons c2 r2 => simp [pfxSplit, h1, h2]

/-- A blank line (in the sense of the extractor's `line.strip()`) never
matches `LICENSE_REGEX`. -/
theorem blank_no_lic (l : Str) (hb : (pyStrip l).isEmpty = true) :
    matchLicense l = none := by
  cases l with
  | nil => rfl
  | cons c r =>
    have hc : isPySpace c = true := by
      cases hcc : isPySpace c with
      | true => rfl
      | false => rw [pyStrip_cons_ne c r hcc] at hb; exact absurd hb (by simp)
    simp [matchLicense, pfxSplit_ws c r hc]

/-- Once a copyright line is recorded, the scan never changes it. -/
theorem scan_fst_state (ls : List Str) (h : Str) :
    (scanLines ls (some h)).1 = some h := by
  induction ls with
  | nil => rfl
  | cons a rest ih =>
    simp only [scanLines]
    by_cases hb : (pyStrip (stripBomNl a)).isEmpty
    · simp [hb, ih]
    · simp only [hb, if_false, Bool.false_eq_true]
      by_cases hm : (matchLicense (stripBomNl a)).isSome
      · simp [hm]
      · simp [hm, ih]

/-- If the scan reports a license line, it reports a copyright line. -/
theorem scan_snd_isSome (ls : List Str) :
    ∀ h0, ((scanLines ls h0).2).isSome = true → ((scanLines ls h0).1).isSome = true := by
  induction ls with
  | nil => intro h0 hs; simp [scanLines] at hs
  | cons a rest ih =>
    intro h0 hs
    simp only [scanLines] at hs ⊢
    by_cases hb : (pyStrip (stripBomNl a)).isEmpty
    · simp only [hb, if_true] at hs ⊢
      exact ih h0 hs
    · simp only [hb, if_false, Bool.false_eq_true] at hs ⊢
      cases h0 with
      | none =>
        by_cases hm : (matchHeader (stripBomNl a)).isSome
        · simp only [hm, if_true] at hs ⊢
          exact ih _ hs
        · simp only [hm, if_false, Bool.false_eq_true] at hs ⊢
          exact ih _ hs
      | some hl =>
        by_cases hm : (matchLicense (stripBomNl a)).isSome
        · simp [hm]
        · simp only [hm, if_false, Bool.false_eq_true] at hs ⊢
          exact ih _ hs

/-- With a copyright line already found, the reported license line is the
strip of some input line, it matches `LICENSE_REGEX`, and no earlier
remaining line matches: the scan stops at the first license match. -/
theorem scan_lic_split (ls : List Str) :
    ∀ hdr l, (scanLines ls (some hdr)).2 = some l →
      ∃ as y bs, ls = as ++ y :: bs ∧ stripBomNl y = l ∧
        (matchLicense l).isSome = true ∧
        ∀ m ∈ as, matchLicense (stripBomNl m) = none := by
  induction ls with
  | nil => intro hdr l h; simp [scanLines] at h
  | cons a rest ih =>
    intro hdr l h
    simp only [scanLines] at h
    by_cases hb : (pyStrip (stripBomNl a)).isEmpty
    · rw [if_pos hb] at h
      obtain ⟨as, y, bs, hsplit, hy, hm, hall⟩ := ih hdr l h
      refine ⟨a :: as, y, bs, by simp [hsplit], hy, hm, ?_⟩
      intro m hm'
      rcases List.mem_cons.mp hm' with rfl | hmem
      · exact blank_no_lic _ hb
      · exact hall m hmem
    · rw [if_neg hb] at h
      by_cases hm : (matchLicense (stripBomNl a)).isSome
      · rw [if_pos hm] at h
        simp only [Prod.snd, Option.some.injEq] at h
        exact ⟨[], a, rest, by simp, h, by rw [← h]; exact hm, by simp⟩
      · rw [if_neg hm] at h
        obtain ⟨as, y, bs, hsplit, hy, hmm, hall⟩ := ih hdr l h
        refine ⟨a :: as, y, bs, by simp [hsplit], hy, hmm, ?_⟩
        intro m hm'
        rcases List.mem_cons.mp hm' with rfl | hmem
        · cases hx : matchLicense (stripBomNl m) with
          | none => rfl
          | some v => rw [hx] at hm; exact absurd rfl hm
        · exact hall m hmem

/-- The copyright line reported by the scan is the strip of some input
line, it matches `HEADER_REGEX`, and the license component of the scan
result is what scanning the remaining lines with the found header
produces. -/
theorem scan_hdr_split (ls : List Str) :
    ∀ h, (scanLines ls none).1 = some h →
      ∃ as x bs, ls = as ++ x :: bs ∧ stripBomNl x = h ∧
        (matchHeader h).isSome = true ∧
        (scanLines ls none).2 = (scanLines bs (some h)).2 := by
  induction ls with
  | nil => intro h hh; simp [scanLines] at hh
  | cons a rest ih =>
    intro h hh
    by_cases hb : (pyStrip (stripBomNl a)).isEmpty
    · have e : scanLines (a :: rest) none = scanLines rest none := by
        simp [scanLines, hb]
      rw [e] at hh ⊢
      obtain ⟨as, x, bs, hsplit, hx, hm, hsnd⟩ := ih h hh
      exact ⟨a :: as, x, bs, by simp [hsplit], hx, hm, hsnd⟩
    · by_cases hm : (matchHeader (stripBomNl a)).isSome
      · have e : scanLines (a :: rest) none = scanLines rest (some (stripBomNl a)) := by
          simp [scanLines, hb, hm]
        rw [e] at hh ⊢
        rw [scan_fst_state rest (stripBomNl a)] at hh
        have hx : stripBomNl a = h := by injection hh
        refine ⟨[], a, rest, by simp, hx, by rw [hx] at hm; exact hm, by rw [hx]⟩
      · have e : scanLines (a :: rest) none = scanLines rest none := by
          simp [scanLines, hb, hm]
        rw [e] at hh ⊢
        obtain ⟨as, x, bs, hsplit, hx, hmm, hsnd⟩ := ih h hh
        exact ⟨a :: as, x, bs, by simp [hsplit], hx, hmm, hsnd⟩

/-- A file from which no copyright line was extracted is skipped with no
violations, whatever its status and however it got there. -/
theorem processFile_no_hdr (w : World) (cfg : Cfg) (status path : Str)
    (h : (extract_header_lines (w.content path)).1 = none) :
    processFile w cfg status path = ([], .skipped) := by
  have hx := (Prod.mk.eta (p := extract_header_lines (w.content path))).symm
  rw [h] at hx
  unfold processFile
  rw [hx]
  split_ifs <;> rfl

/-- `split("\t")` of a tab-free string. -/
theorem splitTab_no_tab (a : Str) (h : '\t' ∉ a) : splitTab a = [a] := by
  induction a with
  | nil => rfl
  | cons c r ih =>
    have hc : c ≠ '\t' := by rintro rfl; exact h (List.mem_cons_self _ _)
    have hr : '\t' ∉ r := fun hm => h (List.mem_cons_of_mem _ hm)
    simp [splitTab, hc, ih hr]

/-- `split("\t")` around the first tab after a tab-free column. -/
theorem splitTab_append (a b : Str) (h : '\t' ∉ a) :
    splitTab (a ++ '\t' :: b) = a :: splitTab b := by
  induction a with
  | nil => simp [splitTab]
  | cons c r ih =>
    have hc : c ≠ '\t' := by rintro rfl; exact h (List.mem_cons_self _ _)
    have hr : '\t' ∉ r := fun hm => h (List.mem_cons_of_mem _ hm)
    simp [splitTab, hc, ih hr]

/-- Claim C1: for a modified or copied file whose copyright line parses to
a year range `(s, e)` with `s > e`, `e ≠ cur` and a known creation year
`c` with `s ≠ c`, and whose license line is valid, the rule engine appends
exactly three violations in one pass — the start-after-end, range-end and
range-start sub-rules all fire, the identical-bounds rule does not: the
sub-rules are cumulative, not fail-fast. -/
theorem claimRangeCumulative (path ys : Str) (s e c cur : Nat) (hl hold : Option Str)
    (hparse : parse_years ys = (s, some e)) (hse : e < s) (hec : e ≠ cur)
    (hc : 0 < c) (hsc : s ≠ c) :
    validate_modified_file path (some ys) true (some c) cur hl hold =
      [⟨path, .rangeStartAfterEnd s e hl hold⟩,
       ⟨path, .rangeEndNotCurrent s cur hl hold⟩,
       ⟨path, .rangeStartNotCreation c e hl hold⟩] := by
  have hc0 : ¬c = 0 := by omega
  have hne : ¬s = e := by omega
  unfold validate_modified_file
  simp [hparse, hse, hec, hsc, hc0, hne]

/-- Witness for C1: the range `2025-2024` on a file created in 2020, with
current year 2026, accrues the three range violations of
`validate_modified_file` at once. -/
theorem claimRangeCumulativeW :
    validate_modified_file wPath (some ysRange) true (some 2020) 2026 (some wl1) (some wHold) =
      [⟨wPath, .rangeStartAfterEnd 2025 2024 (some wl1) (some wHold)⟩,
       ⟨wPath, .rangeEndNotCurrent 2025 2026 (some wl1) (some wHold)⟩,
       ⟨wPath, .rangeStartNotCreation 2020 2024 (some wl1) (some wHold)⟩] :=
  claimRangeCumulative wPath ysRange 2025 2024 2020 2026 (some wl1) (some wHold)
    (by decide) (by decide) (by decide) (by decide) (by decide)

/-- Claim C2: for a modified file whose copyright line parses to a single
year different from the current year, with a valid license line: when the
creation year is known (a positive year) and strictly below the current
year, exactly one violation is appended, recommending the range
creation-current; when the creation year is unknown, exactly one violation
is appended, recommending the bare current year. -/
theorem claimSingleYearStale (path ys : Str) (s cur : Nat) (hl hold : Option Str)
    (hparse : parse_years ys = (s, none)) (hneq : s ≠ cur) :
    (∀ c, 0 < c → c < cur →
        validate_modified_file path (some ys) true (some c) cur hl hold =
          [⟨path, .predatesUseRange c cur hl hold⟩])
  ∧ validate_modified_file path (some ys) true none cur hl hold =
      [⟨path, .yearShouldBeCurrent cur hl hold⟩] := by
  constructor
  · intro c hc hlt
    have hc0 : ¬c = 0 := by omega
    unfold validate_modified_file
    simp [hparse, hneq, hlt, hc0]
  · unfold validate_modified_file
    simp [hparse, hneq]

/-- Witness for C2: single year 2023 on a modified file created in 2020,
current year 2026, yields exactly the range recommendation 2020-2026. -/
theorem claimSingleYearStaleW :
    validate_modified_file wPath (some ysOld) true (some 2020) 2026 (some cHdr) (some wHold) =
      [⟨wPath, .predatesUseRange 2020 2026 (some cHdr) (some wHold)⟩] :=
  (claimSingleYearStale wPath ysOld 2023 2026 (some cHdr) (some wHold)
    (by decide) (by decide)).1 2020 (by decide) (by decide)

/-- Claim C6: the extraction invariant.  The license component of
`extract_header_lines` is populated only if the copyright component is;
both reported lines are (strips of) lines among the first 10 physical
lines, the copyright line at or before the license line in scan order;
and the reported license line is the first license match after the found
copyright line. -/
theorem claimExtractInvariant (lines : List Str) :
    (((extract_header_lines (some lines)).2).isSome = true →
      ((extract_header_lines (some lines)).1).isSome = true)
  ∧ (∀ h, (extract_header_lines (some lines)).1 = some h →
      ∃ as x bs, lines.take 10 = as ++ x :: bs ∧ stripBomNl x = h ∧
        (matchHeader h).isSome = true)
  ∧ (∀ h l, (extract_header_lines (some lines)).1 = some h →
      (extract_header_lines (some lines)).2 = some l →
      ∃ as x mid y bs, lines.take 10 = as ++ x :: (mid ++ y :: bs) ∧
        stripBomNl x = h ∧ stripBomNl y = l ∧ (matchLicense l).isSome = true ∧
        ∀ m ∈ mid, matchLicense (stripBomNl m) = none) := by
  refine ⟨?_, ?_, ?_⟩
  · intro hs
    exact scan_snd_isSome (lines.take 10) none hs
  · intro h hh
    obtain ⟨as, x, bs, h1, h2, h3, -⟩ := scan_hdr_split (lines.take 10) h hh
    exact ⟨as, x, bs, h1, h2, h3⟩
  · intro h l hh hl
    obtain ⟨as, x, bs, h1, h2, h3, hsnd⟩ := scan_hdr_split (lines.take 10) h hh
    have hl' : (scanLines bs (some h)).2 = some l := by
      rw [← hsnd]; exact hl
    obtain ⟨mid, y, bs', h4, h5, h6, h7⟩ := scan_lic_split bs h l hl'
    exact ⟨as, x, mid, y, bs', by rw [h1, h4], h2, h5, h6, h7⟩

/-- Witness for C6: on the two scenario lines, the invariant instantiates
to a concrete split with an empty middle. -/
theorem claimExtractInvariantW :
    ∃ as x mid y bs, ([wl1, wl2].take 10 = as ++ x :: (mid ++ y :: bs)) ∧
      stripBomNl x = wl1 ∧ stripBomNl y = wl2 ∧ (matchLicense wl2).isSome = true ∧
      ∀ m ∈ mid, matchLicense (stripBomNl m) = none :=
  (claimExtractInvariant [wl1, wl2]).2.2 wl1 wl2 (by decide) (by decide)

/-- Claim C7: a path whose file is absent or not decodable yields an empty
header match from extraction (no error is possible: the function is
total), and the main loop counts such a file as skipped with zero
violations — a read failure is never itself a violation and never aborts
the run. -/
theorem claimReadFailureSkipped :
    extract_header_lines none = (none, none)
  ∧ ∀ (w : World) (cfg : Cfg) (status path : Str), w.content path = none →
      processFile w cfg status path = ([], .skipped) := by
  refine ⟨rfl, ?_⟩
  intro w cfg status path h
  apply processFile_no_hdr
  rw [h]
  rfl

/-- Witness for C7: in a world where every read fails, a modified file is
skipped with no violations. -/
theorem claimReadFailureSkippedW :
    processFile w7 baseCfg strM p7 = ([], Outcome.skipped) :=
  claimReadFailureSkipped.2 w7 baseCfg strM p7 rfl

/-- Counterexample to C5 as stated: a line that superficially resembles a
copyright header but fails the full pattern (missing holder) is NOT
reported as the found copyright line — extraction returns the empty match
and the main loop skips the file with zero violations instead of
producing a format violation. -/
theorem claimNearMissCounter :
    extract_header_lines (some [nearMiss]) = (none, none)
  ∧ processFile w5 baseCfg strM p5 = ([], Outcome.skipped) :=
  ⟨by decide, by decide⟩

/-- Claim C5 as amended: extraction applies the same full anchored pattern
as the parse stage, so a line is reported as the copyright line only if it
matches `HEADER_REGEX` in full; a file none of whose first 10 lines
matches is skipped as having no detectable header, with zero violations,
rather than reaching the parser stage. -/
theorem claimNearMissAmended :
    (∀ (lines : List Str) (h : Str),
        (extract_header_lines (some lines)).1 = some h → (matchHeader h).isSome = true)
  ∧ (∀ (w : World) (cfg : Cfg) (status path : Str),
        (extract_header_lines (w.content path)).1 = none →
        processFile w cfg status path = ([], .skipped)) := by
  constructor
  · intro lines h hh
    obtain ⟨-, -, -, -, -, h3, -⟩ := scan_hdr_split (lines.take 10) h hh
    exact h3
  · exact fun w cfg status path h => processFile_no_hdr w cfg status path h

/-- Witness for the amended C5: the scenario-1 extraction result does
match the full pattern. -/
theorem claimNearMissAmendedW : (matchHeader wl1).isSome = true :=
  claimNearMissAmended.1 [wl1, wl2] wl1 (by decide)

/-- Counterexample to C4 as stated: a renamed file is NOT validated with
the modified-file rule set.  With a stale 2020 header, creation year 2020
and current year 2026, the file passes under status `R` with zero
violations, while the same file under status `M` does not — so `R` is not
handled the same as `M` and `C`. -/
theorem claimRenameCounter :
    processFile wRen baseCfg strR cPath = ([], Outcome.passed)
  ∧ processFile wRen baseCfg strM cPath ≠ processFile wRen baseCfg strR cPath :=
  ⟨by decide, by decide⟩

/-- Claim C4 as amended: for a changed-file entry whose status starts with
`R`, the destination path is substituted for the source path and the
status is truncated to `R`; but the status dispatch validates only `A`,
`M` and `C`, so a renamed file undergoes no status-specific validation
(only the format-stage checks that run for every extracted header). -/
theorem claimRenameAmended :
    (∀ (stat src dst : Str), headIs 'R' stat = true →
        '\t' ∉ stat → '\t' ∉ src → '\t' ∉ dst →
        parseDiffLine (stat ++ '\t' :: (src ++ '\t' :: dst)) = some (stat.take 1, dst))
  ∧ (∀ (path : Str) (ys? : Option Str) (lok : Bool) (cy : Option Nat) (cur : Nat)
        (hl : Str) (hold : Option Str),
        dispatchStage strR path ys? lok cy cur hl hold = []) := by
  constructor
  · intro stat src dst hR hts htsrc htdst
    obtain ⟨t, rfl⟩ : ∃ t, stat = 'R' :: t := by
      cases stat with
      | nil => simp [headIs] at hR
      | cons c t =>
        have hcv : c = 'R' := by simpa [headIs] using hR
        exact ⟨t, by rw [hcv]⟩
    have hnb : ¬((pyStrip (('R' :: t) ++ '\t' :: (src ++ '\t' :: dst))).isEmpty = true) := by
      rw [List.cons_append, pyStrip_cons_ne 'R' _ (by decide)]
      simp
    have hsp : splitTab (('R' :: t) ++ '\t' :: (src ++ '\t' :: dst)) =
        ('R' :: t) :: src :: [dst] := by
      rw [splitTab_append _ _ hts, splitTab_append _ _ htsrc, splitTab_no_tab _ htdst]
    unfold parseDiffLine
    rw [if_neg hnb, hsp]
    simp [headIs]
  · intro path ys? lok cy cur hl hold
    unfold dispatchStage
    rw [if_neg (by decide), if_neg (by decide)]

/-- Witness for the amended C4: the diff row `R100 old new` parses to the
entry whose status is the truncated `R` and whose path is the destination
column. -/
theorem claimRenameAmendedW :
    parseDiffLine (statR4 ++ '\t' :: (srcP ++ '\t' :: dstP)) = some (statR4.take 1, dstP) :=
  claimRenameAmended.1 statR4 srcP dstP (by decide) (by decide) (by decide) (by decide)

/-- Claim C8: in diff mode, the exit code is 2 exactly when the base
revision does not resolve, 0 exactly when the run proceeded and zero
violations were found (including an empty change list), and 1 exactly when
the run proceeded and at least one violation was found; in the
unresolvable-base case the run aborts before any per-file processing, with
empty violations and zero counters. -/
theorem claimExitCodes (w : World) (cfg : Cfg) (hall : cfg.checkAllFiles = false) :
    ((mainRun w cfg).exitCode = 2 ↔ w.baseResolvable = false)
  ∧ ((mainRun w cfg).exitCode = 0 ↔
      (w.baseResolvable = true ∧ (mainRun w cfg).violations = []))
  ∧ ((mainRun w cfg).exitCode = 1 ↔
      (w.baseResolvable = true ∧ (mainRun w cfg).violations ≠ []))
  ∧ (w.baseResolvable = false → mainRun w cfg = ⟨2, [], 0, 0, 0⟩) := by
  cases hb : w.baseResolvable with
  | false =>
    have hm : mainRun w cfg = ⟨2, [], 0, 0, 0⟩ := by
      unfold mainRun
      simp [hall, hb]
    refine ⟨?_, ?_, ?_, ?_⟩ <;> simp [hm, hb]
  | true =>
    have hm : mainRun w cfg = mainFinish w cfg (list_changed_files w.diffLines) := by
      unfold mainRun
      simp [hall, hb]
    have key : (mainFinish w cfg (list_changed_files w.diffLines)).exitCode =
        if (mainFinish w cfg (list_changed_files w.diffLines)).violations.isEmpty
        then 0 else 1 := by
      unfold mainFinish
      split
      · simp
      · simp
    rw [hm]
    by_cases hv : (mainFinish w cfg (list_changed_files w.diffLines)).violations = []
    · have he : (mainFinish w cfg (list_changed_files w.diffLines)).exitCode = 0 := by
        rw [key, hv]
        simp
      refine ⟨?_, ?_, ?_, ?_⟩ <;> simp [he, hv, hb]
    · have hne : ((mainFinish w cfg (list_changed_files w.diffLines)).violations.isEmpty) = false := by
        cases hE : (mainFinish w cfg (list_changed_files w.diffLines)).violations with
        | nil => exact absurd hE hv
        | cons a l => simp [hE]
      have he : (mainFinish w cfg (list_changed_files w.diffLines)).exitCode = 1 := by
        rw [key, hne]
        simp
      refine ⟨?_, ?_, ?_, ?_⟩ <;> simp [he, hv, hb]

/-- Witness for C8: with an unresolvable base revision the run returns 2
with nothing processed. -/
theorem claimExitCodesW : mainRun w8 baseCfg = ⟨2, [], 0, 0, 0⟩ :=
  (claimExitCodes w8 baseCfg rfl).2.2.2 rfl

/-- Claim C9 (spec-modelled, the holder filter is absent from the script
under `scripts/` and present only in its tests): when a holder glob is
configured and the parsed holder of a file does not match it, the file is
excluded from all rule evaluation, contributes zero violations, and is
reported as ignored for holder mismatch — not as passed or skipped for
another reason. -/
theorem claimHolderFilterIgnored (w : World) (cfg : Cfg)
    (pat status path hl : Str) (l? : Option Str) (p ys hold : Str)
    (hinc : cfg.includePats = []) (hexc : cfg.excludePats = [])
    (hdir : w.isDir path = false)
    (hx : extract_header_lines (w.content path) = (some hl, l?))
    (hm : matchHeader (pyStrip hl) = some (p, ys, hold))
    (hg : w.matchGlob hold pat = false) :
    processFileH w cfg (some pat) status path = ([], Outcome.ignored) := by
  unfold processFileH
  rw [hx, hinc, hexc]
  simp [hdir, hm, hg]

/-- Witness for C9: the scenario file's holder `Acme Corp` fails the
configured glob and is reported as ignored with no violations. -/
theorem claimHolderFilterIgnoredW :
    processFileH w9 baseCfg (some patU) strA p9 = ([], Outcome.ignored) :=
  claimHolderFilterIgnored w9 baseCfg patU strA p9 wl1 (some wl2) wPfxC wYears1 wHold
    rfl rfl rfl (by decide) (by decide) rfl

/-- Claim C3: an added file whose copyright line parses with a single year
equal to the current year and a non-blank holder, and whose license line
parses with the same comment marker, produces zero violations, and a run
over just that file returns exit code 0 (one file checked, one passed). -/
theorem claimAddedCompliant (w : World) (cfg : Cfg) (path hl ll p ys hold lic : Str)
    (hcall : cfg.checkAllFiles = false)
    (hres : w.baseResolvable = true)
    (hchanged : list_changed_files w.diffLines = [(strA, path)])
    (hinc : cfg.includePats = [])
    (hexc : cfg.excludePats = [])
    (hdir : w.isDir path = false)
    (hx : extract_header_lines (w.content path) = (some hl, some ll))
    (hm : matchHeader (pyStrip hl) = some (p, ys, hold))
    (hold1 : hold.isEmpty = false)
    (hold2 : (pyStrip hold).isEmpty = false)
    (hy : parse_years ys = (cfg.currentYear, none))
    (hlm : matchLicense (pyStrip ll) = some (p, lic)) :
    mainRun w cfg = ⟨0, [], 1, 1, 0⟩ := by
  have hhp : headerPart path hl = ([], some ys, some hold, some p) := by
    unfold headerPart
    rw [hm]
    simp [hold1, hold2]
  have hlp : licensePart path (some p) (some ll) = ([], true) := by
    simp only [licensePart]
    rw [hlm]
    simp
  have hpo : parseStage path hl (some ll) = ⟨[], some ys, some hold, some p, true⟩ := by
    unfold parseStage
    rw [hhp]
    simp [hlp]
  have hdv : dispatchStage strA path (some ys) true (w.creationYear path)
      cfg.currentYear hl (some hold) = [] := by
    unfold dispatchStage
    simp [validate_new_file, hy]
  have hus : statusUpper strA = strA := by decide
  have hcs : checkStage w cfg strA path hl (some ll) = ([], .passed) := by
    unfold checkStage
    simp [hpo, hus, hdv]
  have hpf : processFile w cfg strA path = ([], .passed) := by
    unfold processFile
    rw [hx, hinc, hexc]
    simp [hdir, hcs]
  unfold mainRun
  rw [hcall, hres]
  simp only [Bool.false_eq_true, if_false, if_true]
  rw [hchanged]
  unfold mainFinish
  simp [runFiles, fileStep, hpf]

/-- Witness for C3: the spec's scenario 1 — `// SPDX-FileCopyrightText:
2026 Acme Corp` plus `// SPDX-License-Identifier: MIT` on a file added
with current year 2026 — runs to exit code 0 with no violations. -/
theorem claimAddedCompliantW : mainRun w3 baseCfg = ⟨0, [], 1, 1, 0⟩ :=
  claimAddedCompliant w3 baseCfg wPath wl1 wl2 wPfxC wYears1 wHold wLicMit
    rfl rfl (by decide) rfl rfl rfl (by decide) (by decide) (by decide) (by decide)
    (by decide) (by decide)

/-- Claim C10: a checked file (status `A`, `M` or `C`) whose copyright
line parses with marker `p`, single year equal to the current year and
non-blank holder, and whose license line parses with a different marker
`q`, accrues exactly two violations from the single mismatch: the
same-comment-marker violation, and the missing-license violation from the
status validator, because the mismatch sets the license-validity flag to
false.  (Creation year unknown, so no date rule fires.) -/
theorem claimMarkerMismatchTwo (w : World) (cfg : Cfg) (status path hl ll p ys hold q lic : Str)
    (hinc : cfg.includePats = [])
    (hexc : cfg.excludePats = [])
    (hdir : w.isDir path = false)
    (hx : extract_header_lines (w.content path) = (some hl, some ll))
    (hm : matchHeader (pyStrip hl) = some (p, ys, hold))
    (hold1 : hold.isEmpty = false)
    (hold2 : (pyStrip hold).isEmpty = false)
    (hy : parse_years ys = (cfg.currentYear, none))
    (hlm : matchLicense (pyStrip ll) = some (q, lic))
    (hqp : (q == p) = false)
    (hcy : w.creationYear path = none)
    (hst : statusUpper status = strA ∨ statusUpper status = strM ∨ statusUpper status = strC) :
    processFile w cfg status path =
      ([⟨path, .pfxMismatch⟩, ⟨path, .missingLicense⟩], Outcome.failed) := by
  have hhp : headerPart path hl = ([], some ys, some hold, some p) := by
    unfold headerPart
    rw [hm]
    simp [hold1, hold2]
  have hlp : licensePart path (some p) (some ll) = ([], false) := by
    simp only [licensePart]
    rw [hlm]
    simp [hqp]
  have hpo : parseStage path hl (some ll) =
      ⟨[⟨path, .pfxMismatch⟩], some ys, some hold, some p, false⟩ := by
    unfold parseStage
    rw [hhp]
    simp [hlp]
  have hdv : dispatchStage (statusUpper status) path (some ys) false
      (w.creationYear path) cfg.currentYear hl (some hold) = [⟨path, .missingLicense⟩] := by
    rcases hst with hst | hst | hst <;> rw [hst] <;> unfold dispatchStage
    · simp [validate_new_file, hy]
    · simp [(by decide : ¬(strM = strA)), validate_modified_file, hy, hcy]
    · simp [(by decide : ¬(strC = strA)), (by decide : ¬(strC = strM)),
        validate_modified_file, hy, hcy]
  have hcs : checkStage w cfg status path hl (some ll) =
      ([⟨path, .pfxMismatch⟩, ⟨path, .missingLicense⟩], Outcome.failed) := by
    unfold checkStage
    simp [hpo, hdv]
  unfold processFile
  rw [hx, hinc, hexc]
  simp [hdir, hcs]

/-- Witness for C10: the scenario file whose copyright line uses `//` and
whose license line uses `#` gets exactly the marker-mismatch and
missing-license violations under status `A`. -/
theorem claimMarkerMismatchTwoW :
    processFile w10 baseCfg strA p10 =
      ([⟨p10, .pfxMismatch⟩, ⟨p10, .missingLicense⟩], Outcome.failed) :=
  claimMarkerMismatchTwo w10 baseCfg strA p10 wl1 lic10 wPfxC wYears1 wHold wPfxH wLicMit
    rfl rfl rfl (by decide) (by decide) (by decide) (by decide) (by decide) (by decide)
    (by decide) rfl (Or.inl (by decide))

end SpdxCheck
